import Mathlib

/-!
# Verification of the invoice-extraction core (`src/app.py`)

This file gives a shallow embedding of the logic that sits between the AI
response and the spreadsheet write in `src/app.py`:

* the tax-normalization block (lines 146-157),
* the extraction-failure gate (lines 136-144),
* the sheet upsert `update_google_sheet` (lines 34-72),
* the pipeline control flow connecting them (lines 136-160).

Modelling conventions:

* Python `float` values are modelled by exact rationals (`ℚ`).  Parsing a
  numeric string follows the grammar accepted by Python's `float()`
  (optional surrounding whitespace, optional sign, decimal digits with
  single underscores between digits, optional fraction, optional exponent).
  Non-finite forms (`inf`, `nan`) and IEEE-754 artefacts (overflow at
  ~1e309, representation error, signed zero, shortest-repr formatting of
  huge magnitudes) are idealized away: arithmetic is exact and rendering is
  plain decimal.
* `round(x, 2)` is modelled as round-half-to-even at two decimal places on
  the exact value (spec §4.1 explicitly allows either tie-breaking rule).
* The worksheet is a list of rows, each row a list of cell strings; an
  absent cell reads as `""`, matching the Sheets API's padding behaviour.
* The parsed JSON reply is modelled at two levels: a 5-field `Invoice`
  record (the schema-shaped case the claims quantify over) and a raw
  string-valued association list (`Entries`) for the error-handling
  pipeline, since the code applies the gate and the upsert to the raw dict.
-/

namespace InvoiceApp

/-- ASCII whitespace stripped by Python's `str.strip()` (unicode extras
are out of scope for this development). -/
def isPySpace (c : Char) : Bool :=
  c = ' ' || c = '\t' || c = '\n' || c = '\r' || c = '\x0b' || c = '\x0c'

/-- Python `str.strip()`: drop leading and trailing whitespace. -/
def pyStrip (s : String) : String :=
  ⟨((s.data.dropWhile isPySpace).reverse.dropWhile isPySpace).reverse⟩

/-- Python `s.replace(c, "")` for a one-character pattern: every
occurrence of `c` is removed. -/
def removeChar (s : String) (c : Char) : String :=
  ⟨s.data.filter (fun a => a != c)⟩

/-- Python `c in s` for a one-character `c`. -/
def strContains (s : String) (c : Char) : Bool :=
  s.data.contains c

/-- Consume a maximal run of decimal digits, allowing a single `_`
between two digits (Python numeric-literal underscores).  Returns the
accumulated value, the number of digits consumed, and the rest of the
input.  `acc`/`n` are the accumulator seeds. -/
def digitRun : List Char → ℕ → ℕ → ℕ × ℕ × List Char
  | [], acc, n => (acc, n, [])
  | [c], acc, n =>
    if c.isDigit then (10 * acc + (c.toNat - 48), n + 1, [])
    else (acc, n, [c])
  | c :: c2 :: cs2, acc, n =>
    if c.isDigit then
      digitRun (c2 :: cs2) (10 * acc + (c.toNat - 48)) (n + 1)
    else if c = '_' && n != 0 && c2.isDigit then
      digitRun cs2 (10 * acc + (c2.toNat - 48)) (n + 1)
    else (acc, n, c :: c2 :: cs2)

/-- Scan a Python float literal (grammar of `float(s)` on finite decimal
literals: optional surrounding whitespace, optional sign, then
`digitpart? [. digitpart?] [(e|E) sign? digitpart]` with at least one
mantissa digit and nothing left over).  Returns the parts
`(neg, ip, fp, nf, expNeg, ev)`: the mantissa is `ip.fp` with `nf`
fractional digits and the value is `±(ip + fp/10^nf) · 10^(±ev)`.
`none` models the `ValueError` raised on anything else (`inf`/`nan` are
deliberately out of the model's scope, see the header). -/
def pyFloatParse (s : String) : Option (Bool × ℕ × ℕ × ℕ × Bool × ℕ) :=
  let l := s.data.dropWhile isPySpace
  let l := (l.reverse.dropWhile isPySpace).reverse
  let (neg, l2) :=
    match l with
    | '+' :: rest => (false, rest)
    | '-' :: rest => (true, rest)
    | _ => (false, l)
  let (ip, ni, r1) := digitRun l2 0 0
  let (fp, nf, r2) :=
    match r1 with
    | '.' :: rest => digitRun rest 0 0
    | _ => (0, 0, r1)
  if ni + nf = 0 then none
  else
    match r2 with
    | [] => some (neg, ip, fp, nf, false, 0)
    | c :: rest =>
      if c = 'e' || c = 'E' then
        let (expNeg, rest2) :=
          match rest with
          | '+' :: t => (false, t)
          | '-' :: t => (true, t)
          | _ => (false, rest)
        let (ev, ne, r3) := digitRun rest2 0 0
        if ne = 0 then none
        else if r3.isEmpty then some (neg, ip, fp, nf, expNeg, ev)
        else none
      else none

/-- The exact value denoted by the parts of a float literal. -/
def ratOfParts : Bool × ℕ × ℕ × ℕ × Bool × ℕ → ℚ
  | (neg, ip, fp, nf, expNeg, ev) =>
    let mant : ℚ := (ip : ℚ) + (fp : ℚ) / (10 : ℚ) ^ nf
    let scaled : ℚ := if expNeg then mant / (10 : ℚ) ^ ev else mant * (10 : ℚ) ^ ev
    if neg then -scaled else scaled

/-- Python `float(s)` on a finite decimal literal, as an exact rational. -/
def pyFloat (s : String) : Option ℚ :=
  (pyFloatParse s).map ratOfParts

/-- Round to the nearest integer, ties to even. -/
def roundHalfEven (q : ℚ) : ℤ :=
  let f := ⌊q⌋
  let frac := q - (f : ℚ)
  if frac < 1 / 2 then f
  else if 1 / 2 < frac then f + 1
  else if f % 2 = 0 then f else f + 1

/-- Python `round(x, 2)` on the exact value. -/
def pyRound2 (q : ℚ) : ℚ := (roundHalfEven (q * 100) : ℚ) / 100

/-- Decimal digits of a natural number, most significant first; the
`fuel` argument (always at least the digit count) keeps the recursion
structural so that proofs can evaluate it. -/
def natDigitsAux : ℕ → ℕ → List Char
  | 0, _ => []
  | fuel + 1, n =>
    if n < 10 then [Char.ofNat (48 + n)]
    else natDigitsAux fuel (n / 10) ++ [Char.ofNat (48 + n % 10)]

/-- Decimal digits of a natural number, most significant first
(`n + 1` units of fuel always suffice: a number has at most
`n + 1` digits). -/
def natDigits (n : ℕ) : List Char := natDigitsAux (n + 1) n

/-- The fractional digits printed for `fr` hundredths (`0 ≤ fr < 100`):
trailing zero dropped, but at least one digit, leading zero kept. -/
def fracDigits (fr : ℕ) : List Char :=
  if fr = 0 then ['0']
  else if fr % 10 = 0 then [Char.ofNat (48 + fr / 10)]
  else if fr < 10 then ['0', Char.ofNat (48 + fr)]
  else [Char.ofNat (48 + fr / 10), Char.ofNat (48 + fr % 10)]

/-- Python `str(x)` for a float carrying at most two decimal places (the
only values the normalizer prints): sign, integer part, `.`, then the
fractional digits. -/
def pyFloatStr (q : ℚ) : String :=
  let n : ℕ := (⌊|q| * 100⌋).toNat
  ⟨(if q < 0 then ['-'] else []) ++ natDigits (n / 100) ++ '.' :: fracDigits (n % 100)⟩

/-- The 5-field invoice record (`class Invoice(TypedDict)`, lines 12-17
of `src/app.py`). -/
structure Invoice where
  invoice_number : String
  customer_name : String
  gross_price : String
  tax : String
  total_price : String
deriving Repr, DecidableEq

/-- The record row sent to the sheet (lines 50-56). -/
def toRow (inv : Invoice) : List String :=
  [inv.invoice_number, inv.customer_name, inv.gross_price, inv.tax, inv.total_price]

/-- The `try:` body of the tax-calculation block (lines 149-157), for a
schema-shaped record: parse `gross_price` with all `,` and `$` removed;
if `tax` contains `%`, parse its numeric portion and overwrite `tax` and
`total_price` with the rounded values.  `none` models an exception
escaping the body (a failed `float()` call). -/
def normalizeTry (r : Invoice) : Option Invoice :=
  match pyFloat (removeChar (removeChar r.gross_price ',') '$') with
  | none => none
  | some gross_value =>
    if strContains r.tax '%' then
      match pyFloat (removeChar r.tax '%') with
      | none => none
      | some tax_percent =>
        let tax_value := pyRound2 (gross_value * (tax_percent / 100))
        some { r with
                tax := pyFloatStr tax_value,
                total_price := pyFloatStr (pyRound2 (gross_value + tax_value)) }
    else some r

/-- The whole tax-calculation block (lines 146-157): the `except
Exception: pass` keeps the record unchanged when the body raises. -/
def normalize (r : Invoice) : Invoice :=
  (normalizeTry r).getD r

/-! ## Sheet upsert (`update_google_sheet`, lines 34-72) -/

/-- A worksheet: rows of cell strings (`worksheet.get_all_values()`). -/
abbrev Table := List (List String)

/-- The fixed header row (line 43). -/
def sheetHeaders : List String :=
  ["Invoice Number", "Customer Name", "Gross Price", "Tax", "Total Price"]

/-- Header assurance (lines 44-47): `append_row(headers)` on an empty
sheet, `insert_row(headers, 1)` when row 1 differs from the header. -/
def ensureHeaders (rows : Table) : Table :=
  match rows with
  | [] => [sheetHeaders]
  | r0 :: _ => if r0 = sheetHeaders then rows else sheetHeaders :: rows

/-- The cell-by-cell rewrite loop (lines 63-64): `update_cell(row, col, v)`
for columns `1..record.length`; cells beyond the record keep their
values. -/
def overwriteRow (old newCells : List String) : List String :=
  newCells ++ old.drop newCells.length

/-- Python's `key in ids` followed by `ids.index(key)`: the index of the
first exact match, if any. -/
def firstIdxOf (key : String) : List String → Option ℕ
  | [] => none
  | v :: vs => if v = key then some 0 else (firstIdxOf key vs).map (· + 1)

/-- `update_google_sheet` (lines 34-72) for a schema-shaped record,
with the worksheet passed explicitly: header assurance, then a scan of
column 1 (`col_values(1)`, re-read after the header write) for the
record's invoice number; on a hit the matching row's cells are
overwritten in place, otherwise the record is appended.  The sheet API
itself is external; its I/O failure branch (lines 71-72) is outside the
model. -/
def update_google_sheet (rows : Table) (inv : Invoice) : Table × String :=
  let t1 := ensureHeaders rows
  let record := toRow inv
  let existing_ids := t1.map (fun row => row.headD "")
  match firstIdxOf inv.invoice_number existing_ids with
  | some i => (t1.set i (overwriteRow (t1.getD i []) record), "updated")
  | none => (t1 ++ [record], "added")

/-! ## The raw-dict pipeline (lines 136-160)

`json.loads` can return any JSON value; the code applies the gate, the
normalizer and the upsert to the raw dict, reading fields with
`.get(key, "-")`.  We model string-valued JSON objects as association
lists with unique keys, plus the two failure shapes the handlers
distinguish. -/

/-- A parsed JSON object with string values, as an association list
(keys unique, insertion order kept, as in a Python dict). -/
abbrev Entries := List (String × String)

/-- Python `d.get(k)`: the value bound to `k`, if any. -/
def dictLookup (es : Entries) (k : String) : Option String :=
  match es with
  | [] => none
  | (k', v) :: rest => if k' = k then some v else dictLookup rest k

/-- Python `d.get(k, default)`. -/
def dictGet (es : Entries) (k dflt : String) : String :=
  (dictLookup es k).getD dflt

/-- Python `d[k] = v`: replace the binding in place, else append. -/
def dictSet (es : Entries) (k v : String) : Entries :=
  match es with
  | [] => [(k, v)]
  | (k', v') :: rest => if k' = k then (k, v) :: rest else (k', v') :: dictSet rest k v

/-- The schema-shaped dict produced for an `Invoice` reply. -/
def toEntries (inv : Invoice) : Entries :=
  [("invoice_number", inv.invoice_number),
   ("customer_name", inv.customer_name),
   ("gross_price", inv.gross_price),
   ("tax", inv.tax),
   ("total_price", inv.total_price)]

/-- The extraction-failure gate (line 139):
`all(value.strip() == "-" for value in invoice_data.values())`. -/
def extractionFailureGate (es : Entries) : Bool :=
  es.all (fun kv => pyStrip kv.2 == "-")

/-- The `try:` body of lines 149-157 on the raw dict. -/
def normalizeDictTry (es : Entries) : Option Entries :=
  let gross_price := dictGet es "gross_price" "-"
  let tax := dictGet es "tax" "-"
  match pyFloat (removeChar (removeChar gross_price ',') '$') with
  | none => none
  | some gross_value =>
    if strContains tax '%' then
      match pyFloat (removeChar tax '%') with
      | none => none
      | some tax_percent =>
        let tax_value := pyRound2 (gross_value * (tax_percent / 100))
        some (dictSet (dictSet es "tax" (pyFloatStr tax_value))
                "total_price" (pyFloatStr (pyRound2 (gross_value + tax_value))))
    else some es

/-- Lines 146-157 on the raw dict, exceptions absorbed. -/
def normalizeDict (es : Entries) : Entries :=
  (normalizeDictTry es).getD es

/-- `update_google_sheet` on the raw dict (lines 49-68): fields are read
with `"-"` defaults; the duplicate check uses `d.get("invoice_number")`,
whose `None` (absent key) matches no cell string. -/
def update_google_sheet_dict (rows : Table) (es : Entries) : Table × String :=
  let t1 := ensureHeaders rows
  let record := [dictGet es "invoice_number" "-", dictGet es "customer_name" "-",
                 dictGet es "gross_price" "-", dictGet es "tax" "-",
                 dictGet es "total_price" "-"]
  let existing_ids := t1.map (fun row => row.headD "")
  match dictLookup es "invoice_number" with
  | none => (t1 ++ [record], "added")
  | some key =>
    match firstIdxOf key existing_ids with
    | some i => (t1.set i (overwriteRow (t1.getD i []) record), "updated")
    | none => (t1 ++ [record], "added")

/-- How one press of "Process & Update" ends, as far as the specified
core is concerned. -/
inductive StepResult where
  /-- `st.warning(...)` followed by `st.stop()` (lines 140-144). -/
  | halted (warning : String)
  /-- The outer `except Exception` handler (lines 178-180); its message
  depends on the raised exception and is not modelled. -/
  | errored
  /-- The success path with the upsert's reported action (line 175). -/
  | completed (action : String)
deriving Repr, DecidableEq

/-- The warning text of lines 140 and 143. -/
def cannotExtractMsg : String := "⚠️ Invoice cannot be extracted from the provided image."

/-- The shapes a `json.loads` of the extraction reply can take that the
code distinguishes: a decode failure, a JSON value that is not an object
(so `.values()` raises `AttributeError` into the outer handler), or a
string-valued object. -/
inductive ExtractReply where
  | notJson
  | nonDict
  | dict (entries : Entries)

/-- The pipeline from the parsed reply to the sheet write
(lines 136-160): decode failure and the all-sentinel gate halt with the
warning before any sheet access; otherwise the record is normalized and
upserted. -/
def runPipeline (reply : ExtractReply) (rows : Table) : Table × StepResult :=
  match reply with
  | .notJson => (rows, .halted cannotExtractMsg)
  | .nonDict => (rows, .errored)
  | .dict es =>
    if extractionFailureGate es then (rows, .halted cannotExtractMsg)
    else
      let es2 := normalizeDict es
      let (rows2, action) := update_google_sheet_dict rows es2
      (rows2, .completed action)

/-! ## Basic facts about the rendered number strings -/

/-- A digit character below `10` is never `%`. -/
theorem digitChar_ne_pct (d : ℕ) (h : d < 10) : Char.ofNat (48 + d) ≠ '%' := by
  interval_cases d <;> decide

/-- Every character printed for a natural number is a digit, hence not `%`. -/
theorem natDigitsAux_ne_pct (fuel n : ℕ) : ∀ c ∈ natDigitsAux fuel n, c ≠ '%' := by
  induction fuel generalizing n with
  | zero => intro c hc; simp [natDigitsAux] at hc
  | succ fuel ih =>
    intro c hc
    rw [natDigitsAux] at hc
    by_cases h : n < 10
    · simp [h] at hc
      subst hc
      exact digitChar_ne_pct _ h
    · simp [h] at hc
      rcases hc with hc | hc
      · exact ih _ c hc
      · subst hc
        exact digitChar_ne_pct _ (Nat.mod_lt _ (by omega))

/-- `List.contains` is false when the element is absent. -/
theorem contains_eq_false_of_not_mem {l : List Char} {c : Char} (h : c ∉ l) :
    l.contains c = false := by
  simp [List.contains]
  exact h

/-- A `%` sign is not a digit character. -/
theorem pct_ne_digitChar (d : ℕ) (h : d < 10) : ('%' : Char) ≠ Char.ofNat (48 + d) :=
  fun e => digitChar_ne_pct d h e.symm

/-- No printed fractional digit is a `%` sign. -/
theorem fracDigits_ne_pct (fr : ℕ) (hlt : fr < 100) : ∀ c ∈ fracDigits fr, c ≠ '%' := by
  intro c hc
  unfold fracDigits at hc
  by_cases h0 : fr = 0
  · rw [if_pos h0] at hc
    simp only [List.mem_singleton] at hc
    subst hc
    decide
  · rw [if_neg h0] at hc
    by_cases h10 : fr % 10 = 0
    · rw [if_pos h10] at hc
      simp only [List.mem_singleton] at hc
      subst hc
      exact digitChar_ne_pct _ (by omega)
    · rw [if_neg h10] at hc
      by_cases hfr : fr < 10
      · rw [if_pos hfr] at hc
        simp only [List.mem_cons, List.not_mem_nil, or_false] at hc
        rcases hc with hc | hc
        · subst hc; decide
        · subst hc; exact digitChar_ne_pct _ (by omega)
      · rw [if_neg hfr] at hc
        simp only [List.mem_cons, List.not_mem_nil, or_false] at hc
        rcases hc with hc | hc
        · subst hc; exact digitChar_ne_pct _ (by omega)
        · subst hc; exact digitChar_ne_pct _ (by omega)

/-- The decimal rendering of a float never contains a `%` sign, so a
normalized tax string can never be taken for a percentage again. -/
theorem strContains_pyFloatStr_pct (q : ℚ) : strContains (pyFloatStr q) '%' = false := by
  unfold strContains pyFloatStr
  apply contains_eq_false_of_not_mem
  intro hmem
  simp only [List.mem_append, List.mem_cons] at hmem
  rcases hmem with (hs | hn) | hpt | hd
  · by_cases hq : q < 0
    · rw [if_pos hq] at hs
      exact absurd hs (by decide)
    · rw [if_neg hq] at hs
      exact absurd hs (by decide)
  · exact natDigitsAux_ne_pct _ _ _ hn rfl
  · exact absurd hpt (by decide)
  · exact fracDigits_ne_pct _ (Nat.mod_lt _ (by omega)) _ hd rfl

/-! ## Evaluation helpers for `pyFloat` -/

/-- A scan failure is a `float()` failure. -/
theorem pyFloat_of_parse_none (s : String) (h : pyFloatParse s = none) :
    pyFloat s = none := by
  rw [pyFloat, h]
  rfl

/-- A successful scan gives the denoted rational. -/
theorem pyFloat_of_parse_some (s : String) (t : Bool × ℕ × ℕ × ℕ × Bool × ℕ)
    (h : pyFloatParse s = some t) :
    pyFloat s = some (ratOfParts t) := by
  rw [pyFloat, h]
  rfl

/-! ## The three branches of the normalizer -/

/-- Percentage branch: both parses succeed and `%` is present, so the
two money fields are overwritten and the other three kept. -/
theorem normalize_percent (r : Invoice) (g p : ℚ)
    (hg : pyFloat (removeChar (removeChar r.gross_price ',') '$') = some g)
    (ht : strContains r.tax '%' = true)
    (hp : pyFloat (removeChar r.tax '%') = some p) :
    normalize r = { r with
      tax := pyFloatStr (pyRound2 (g * (p / 100))),
      total_price := pyFloatStr (pyRound2 (g + pyRound2 (g * (p / 100)))) } := by
  simp [normalize, normalizeTry, hg, ht, hp]

/-- Gross-price parse failure: the record passes through unchanged. -/
theorem normalize_gross_err (r : Invoice)
    (h : pyFloat (removeChar (removeChar r.gross_price ',') '$') = none) :
    normalize r = r := by
  simp [normalize, normalizeTry, h]

/-- No `%` in the tax string: the record passes through unchanged. -/
theorem normalize_no_pct (r : Invoice) (g : ℚ)
    (hg : pyFloat (removeChar (removeChar r.gross_price ',') '$') = some g)
    (ht : strContains r.tax '%' = false) :
    normalize r = r := by
  simp [normalize, normalizeTry, hg, ht]

/-! ## Claims about the Field Normalizer (§4.1) -/

/-- C1: for every record whose `gross_price` parses as a decimal number
after stripping `,` and `$` and whose `tax` contains `%` (its numeric
portion parsing as `p`), `normalize` overwrites `tax` with the string
form of `round(gross_value * p / 100, 2)` and `total_price` with the
string form of `round(gross_value + tax_value, 2)`, leaving the other
three fields unchanged. -/
theorem claim1_percent_tax_normalized (r : Invoice) (g p : ℚ)
    (hg : pyFloat (removeChar (removeChar r.gross_price ',') '$') = some g)
    (ht : strContains r.tax '%' = true)
    (hp : pyFloat (removeChar r.tax '%') = some p) :
    normalize r = { r with
      tax := pyFloatStr (pyRound2 (g * (p / 100))),
      total_price := pyFloatStr (pyRound2 (g + pyRound2 (g * (p / 100)))) } :=
  normalize_percent r g p hg ht hp

/-- Witness for C1: the spec §8 example — `gross_price "100"`,
`tax "10%"` yields `tax "10.0"` and `total_price "110.0"`. -/
theorem claim1_witness :
    normalize ⟨"INV-7", "Acme", "100", "10%", "-"⟩
      = ⟨"INV-7", "Acme", "100", "10.0", "110.0"⟩ := by
  have hg : pyFloat (removeChar (removeChar "100" ',') '$') = some 100 := by
    rw [pyFloat_of_parse_some (removeChar (removeChar "100" ',') '$')
      (false, 100, 0, 0, false, 0) (by decide)]
    norm_num [ratOfParts]
  have hp : pyFloat (removeChar "10%" '%') = some 10 := by
    rw [pyFloat_of_parse_some (removeChar "10%" '%') (false, 10, 0, 0, false, 0) (by decide)]
    norm_num [ratOfParts]
  have h := claim1_percent_tax_normalized ⟨"INV-7", "Acme", "100", "10%", "-"⟩ 100 10
    hg (by decide) hp
  rw [h]
  have e1 : pyRound2 ((100 : ℚ) * (10 / 100)) = 10 := by
    norm_num [pyRound2, roundHalfEven]
  rw [e1]
  have e2 : pyRound2 ((100 : ℚ) + 10) = 110 := by
    norm_num [pyRound2, roundHalfEven]
  rw [e2]
  have e3 : pyFloatStr 10 = "10.0" := by
    rw [pyFloatStr]
    norm_num
    decide
  have e4 : pyFloatStr 110 = "110.0" := by
    rw [pyFloatStr]
    norm_num
    decide
  rw [e3, e4]

/-- Modelled from the spec: §4.1's literal reading "stripping thousands
separators (`,`) and a leading currency symbol (`$`)" — all commas
removed, then one `$` removed only at the front.  Line 150 of the code
instead removes every `$`, wherever it occurs. -/
def specStripGross (s : String) : String :=
  let noCommas := removeChar s ','
  match noCommas.data with
  | '$' :: rest => ⟨rest⟩
  | _ => noCommas

/-- C7 counterexample: `"12$"` is not a decimal number after removing
commas and a leading `$` (the claim's hypothesis holds), yet `normalize`
changes the record — the code also removes the trailing `$` and parses
`12`, turning `tax "5%"` into `"0.6"`. -/
theorem claim7_counterexample :
    pyFloat (specStripGross "12$") = none ∧
      normalize ⟨"INV-9", "Acme", "12$", "5%", "-"⟩
        ≠ ⟨"INV-9", "Acme", "12$", "5%", "-"⟩ := by
  constructor
  · exact pyFloat_of_parse_none _ (by decide)
  · have hg : pyFloat (removeChar (removeChar "12$" ',') '$') = some 12 := by
      rw [pyFloat_of_parse_some (removeChar (removeChar "12$" ',') '$')
        (false, 12, 0, 0, false, 0) (by decide)]
      norm_num [ratOfParts]
    have hp : pyFloat (removeChar "5%" '%') = some 5 := by
      rw [pyFloat_of_parse_some (removeChar "5%" '%') (false, 5, 0, 0, false, 0) (by decide)]
      norm_num [ratOfParts]
    have h := normalize_percent ⟨"INV-9", "Acme", "12$", "5%", "-"⟩ 12 5 hg (by decide) hp
    rw [h]
    have e1 : pyRound2 ((12 : ℚ) * (5 / 100)) = 3 / 5 := by
      norm_num [pyRound2, roundHalfEven]
    rw [e1]
    have e2 : pyRound2 ((12 : ℚ) + 3 / 5) = 63 / 5 := by
      norm_num [pyRound2, roundHalfEven]
    rw [e2]
    have e3 : pyFloatStr (3 / 5) = "0.6" := by
      rw [pyFloatStr]
      norm_num [abs_of_nonneg]
      decide
    have e4 : pyFloatStr (63 / 5) = "12.6" := by
      rw [pyFloatStr]
      norm_num [abs_of_nonneg]
      decide
    rw [e3, e4]
    decide

/-- C7 (amended: the code strips every `,` and every `$`, not only a
leading `$`): when `gross_price` does not parse as a decimal number
after that stripping, `normalize` returns the record unchanged. -/
theorem claim7_unparsable_gross_identity (r : Invoice)
    (h : pyFloat (removeChar (removeChar r.gross_price ',') '$') = none) :
    normalize r = r :=
  normalize_gross_err r h

/-- Witness for C7: a plainly non-numeric gross price passes through. -/
theorem claim7_witness :
    normalize ⟨"INV-1", "Zeta", "abc", "10%", "-"⟩
      = ⟨"INV-1", "Zeta", "abc", "10%", "-"⟩ :=
  claim7_unparsable_gross_identity _ (pyFloat_of_parse_none _ (by decide))

/-- C8: the normalizer's `try` body can fail only inside a `float()`
call, and the surrounding `except Exception: pass` absorbs the failure:
whenever the body raises (`normalizeTry r = none`), the caller still
gets a record back, namely the unchanged input — no error propagates. -/
theorem claim8_parse_errors_absorbed (r : Invoice)
    (h : normalizeTry r = none) :
    normalize r = r := by
  simp [normalize, h]

/-- Witness for C8: a percentage tax whose numeric portion does not
parse raises inside the body; the record is returned unchanged. -/
theorem claim8_witness :
    normalize ⟨"INV-2", "Yot", "10", "x%", "-"⟩
      = ⟨"INV-2", "Yot", "10", "x%", "-"⟩ := by
  apply claim8_parse_errors_absorbed
  have hg := pyFloat_of_parse_some (removeChar (removeChar "10" ',') '$')
    (false, 10, 0, 0, false, 0) (by decide)
  have hp : pyFloat (removeChar "x%" '%') = none := pyFloat_of_parse_none _ (by decide)
  simp [normalizeTry, hg, hp]
  decide

/-- C9: normalization is idempotent — a converted tax string is a plain
decimal containing no `%`, so a second pass leaves the record alone. -/
theorem claim9_normalize_idempotent (r : Invoice) :
    normalize (normalize r) = normalize r := by
  cases hg : pyFloat (removeChar (removeChar r.gross_price ',') '$') with
  | none =>
    rw [normalize_gross_err r hg]
    exact normalize_gross_err r hg
  | some g =>
    cases ht : strContains r.tax '%' with
    | false =>
      rw [normalize_no_pct r g hg ht]
      exact normalize_no_pct r g hg ht
    | true =>
      cases hp : pyFloat (removeChar r.tax '%') with
      | none =>
        have h0 : normalizeTry r = none := by simp [normalizeTry, hg, ht, hp]
        have h1 : normalize r = r := by simp [normalize, h0]
        rw [h1]
        exact h1
      | some p =>
        rw [normalize_percent r g p hg ht hp]
        exact normalize_no_pct _ g hg (strContains_pyFloatStr_pct _)

/-! ## Facts about the sheet upsert -/

/-- A scan over values none of which is the key finds nothing. -/
theorem firstIdxOf_of_forall_ne (l : List String) (k : String)
    (h : ∀ v ∈ l, v ≠ k) : firstIdxOf k l = none := by
  induction l with
  | nil => rfl
  | cons v vs ih =>
    rw [firstIdxOf, if_neg (h v (List.mem_cons_self v vs))]
    rw [ih (fun w hw => h w (List.mem_cons_of_mem _ hw))]
    rfl

/-- The scan returns exactly the first position holding the key. -/
theorem firstIdxOf_of_first (l : List String) (k : String) (i : ℕ)
    (hi : i < l.length) (hk : l.getD i "" = k)
    (hfirst : ∀ j, j < i → l.getD j "" ≠ k) :
    firstIdxOf k l = some i := by
  induction l generalizing i with
  | nil => simp at hi
  | cons v vs ih =>
    cases i with
    | zero =>
      simp only [List.getD_cons_zero] at hk
      rw [firstIdxOf, if_pos hk]
    | succ i =>
      have hv : ¬(v = k) := by
        have h0 := hfirst 0 (Nat.succ_pos i)
        simpa using h0
      rw [firstIdxOf, if_neg hv]
      rw [ih i (by simpa using hi) (by simpa using hk)
        (fun j hj => by simpa using hfirst (j + 1) (Nat.succ_lt_succ hj))]
      rfl

/-- Column 1 of a table, read through `map`, agrees with the first cell
of the indexed row. -/
theorem map_headD_getD (rows : Table) (i : ℕ) (hi : i < rows.length) :
    (rows.map (fun row => row.headD "")).getD i "" = (rows.getD i []).headD "" := by
  induction rows generalizing i with
  | nil => simp at hi
  | cons r rs ih =>
    cases i with
    | zero => simp
    | succ i => simpa using ih i (by simpa using hi)

/-- Header assurance always leaves the fixed header as row 1. -/
theorem ensureHeaders_eq_cons (t : Table) :
    ∃ rest, ensureHeaders t = sheetHeaders :: rest := by
  cases t with
  | nil => exact ⟨[], rfl⟩
  | cons r ts =>
    by_cases hr : r = sheetHeaders
    · subst hr
      exact ⟨ts, by simp [ensureHeaders]⟩
    · exact ⟨r :: ts, by simp [ensureHeaders, hr]⟩

/-! ## Claims about the Sheet Upsert (§4.3) -/

/-- C2: the upsert scans column 1 of the (header-assured) table top to
bottom for an exact match to the record's invoice number; at the first
match it overwrites that row's cells with the record's fields in column
order and reports `"updated"`; with no match anywhere it appends the
record row and reports `"added"`. -/
theorem claim2_upsert_scan (t : Table) (inv : Invoice) :
    (∀ i, i < (ensureHeaders t).length →
        ((ensureHeaders t).getD i []).headD "" = inv.invoice_number →
        (∀ j, j < i → ((ensureHeaders t).getD j []).headD "" ≠ inv.invoice_number) →
        update_google_sheet t inv =
          ((ensureHeaders t).set i
            (overwriteRow ((ensureHeaders t).getD i []) (toRow inv)), "updated"))
    ∧ ((∀ row ∈ ensureHeaders t, row.headD "" ≠ inv.invoice_number) →
        update_google_sheet t inv = (ensureHeaders t ++ [toRow inv], "added")) := by
  constructor
  · intro i hi hhit hfirst
    have hfi : firstIdxOf inv.invoice_number
        ((ensureHeaders t).map (fun row => row.headD "")) = some i := by
      apply firstIdxOf_of_first
      · simpa using hi
      · rw [map_headD_getD _ _ hi]
        exact hhit
      · intro j hj
        rw [map_headD_getD _ _ (lt_trans hj hi)]
        exact hfirst j hj
    simp only [update_google_sheet, hfi]
  · intro hforall
    have hfi : firstIdxOf inv.invoice_number
        ((ensureHeaders t).map (fun row => row.headD "")) = none := by
      apply firstIdxOf_of_forall_ne
      intro v hv
      rcases List.mem_map.1 hv with ⟨row, hrow, rfl⟩
      exact hforall row hrow
    simp only [update_google_sheet, hfi]

/-- Witness for C2: an existing invoice number is updated in place; a
fresh one is appended. -/
theorem claim2_witness :
    update_google_sheet [sheetHeaders, ["INV-3", "n", "g", "t", "p"]]
        ⟨"INV-3", "N", "G", "T", "P"⟩
      = ([sheetHeaders, ["INV-3", "N", "G", "T", "P"]], "updated")
    ∧ update_google_sheet [sheetHeaders] ⟨"INV-4", "N", "G", "T", "P"⟩
      = ([sheetHeaders, ["INV-4", "N", "G", "T", "P"]], "added") := by
  constructor
  · have h := (claim2_upsert_scan [sheetHeaders, ["INV-3", "n", "g", "t", "p"]]
      ⟨"INV-3", "N", "G", "T", "P"⟩).1 1 (by decide) (by decide) (by decide)
    exact h.trans (by decide)
  · have h := (claim2_upsert_scan [sheetHeaders] ⟨"INV-4", "N", "G", "T", "P"⟩).2 (by decide)
    exact h.trans (by decide)

/-- C3 counterexample: upserting into an *empty* table a record whose
invoice number happens to equal the header string `"Invoice Number"`
does not leave the header as row 1 with the record as row 2 — the
zealous column-1 scan matches the freshly written header row itself and
overwrites it, leaving a one-row table and reporting `"updated"`. -/
theorem claim3_counterexample :
    update_google_sheet [] ⟨"Invoice Number", "c", "g", "t", "p"⟩
      = ([["Invoice Number", "c", "g", "t", "p"]], "updated")
    ∧ ["Invoice Number", "c", "g", "t", "p"] ≠ sheetHeaders := by decide

/-- C3 (amended to carve out the `"Invoice Number"` key): on an empty
table the header is written first and the record appended as row 2
provided the record's invoice number is not the header string itself;
on a non-empty table whose row 1 differs from the header, the header is
inserted as the new row 1 and the old row 1 is pushed down to row 2,
not deleted — it is only rewritten in place when the subsequent key
match hits it (its first cell equals the record's invoice number and
the number is not `"Invoice Number"`). -/
theorem claim3_header_assurance (inv : Invoice) :
    (inv.invoice_number ≠ "Invoice Number" →
      update_google_sheet [] inv = ([sheetHeaders, toRow inv], "added"))
    ∧ (∀ r ts, r ≠ sheetHeaders →
        (inv.invoice_number ≠ "Invoice Number" →
          (update_google_sheet (r :: ts) inv).1.getD 0 [] = sheetHeaders)
        ∧ ((update_google_sheet (r :: ts) inv).1.getD 1 [] = r
            ∨ (r.headD "" = inv.invoice_number ∧ inv.invoice_number ≠ "Invoice Number"
                ∧ (update_google_sheet (r :: ts) inv).1.getD 1 []
                    = overwriteRow r (toRow inv)))) := by
  constructor
  · intro h
    have hfi : firstIdxOf inv.invoice_number
        ((ensureHeaders []).map (fun row => row.headD "")) = none := by
      apply firstIdxOf_of_forall_ne
      intro v hv
      simp [ensureHeaders, sheetHeaders] at hv
      subst hv
      exact Ne.symm h
    simp only [update_google_sheet, hfi]
    rfl
  · intro r ts hr
    have ht1 : ensureHeaders (r :: ts) = sheetHeaders :: r :: ts := by
      simp [ensureHeaders, hr]
    by_cases h1 : inv.invoice_number = "Invoice Number"
    · have hfi : firstIdxOf inv.invoice_number
          ((sheetHeaders :: r :: ts).map (fun row => row.headD "")) = some 0 := by
        simp [firstIdxOf, sheetHeaders, h1]
      constructor
      · intro h
        exact absurd h1 h
      · left
        simp only [update_google_sheet, ht1, hfi]
        rfl
    · by_cases h2 : r.headD "" = inv.invoice_number
      · have hfi : firstIdxOf inv.invoice_number
            ((sheetHeaders :: r :: ts).map (fun row => row.headD "")) = some 1 := by
          simp only [List.map_cons]
          rw [firstIdxOf, if_neg (fun e => h1 (by simpa [sheetHeaders] using e.symm))]
          rw [firstIdxOf, if_pos h2]
          rfl
        constructor
        · intro _
          simp only [update_google_sheet, ht1, hfi]
          rfl
        · right
          refine ⟨h2, h1, ?_⟩
          simp only [update_google_sheet, ht1, hfi]
          rfl
      · cases hrest : firstIdxOf inv.invoice_number (ts.map (fun row => row.headD "")) with
        | none =>
          have hfi : firstIdxOf inv.invoice_number
              ((sheetHeaders :: r :: ts).map (fun row => row.headD "")) = none := by
            simp only [List.map_cons]
            rw [firstIdxOf, if_neg (fun e => h1 (by simpa [sheetHeaders] using e.symm))]
            rw [firstIdxOf, if_neg h2]
            rw [hrest]
            rfl
          constructor
          · intro _
            simp only [update_google_sheet, ht1, hfi]
            rfl
          · left
            simp only [update_google_sheet, ht1, hfi]
            rfl
        | some k =>
          have hfi : firstIdxOf inv.invoice_number
              ((sheetHeaders :: r :: ts).map (fun row => row.headD "")) = some (k + 2) := by
            simp only [List.map_cons]
            rw [firstIdxOf, if_neg (fun e => h1 (by simpa [sheetHeaders] using e.symm))]
            rw [firstIdxOf, if_neg h2]
            rw [hrest]
            rfl
          constructor
          · intro _
            simp only [update_google_sheet, ht1, hfi]
            rfl
          · left
            simp only [update_google_sheet, ht1, hfi]
            rfl

/-- Witness for C3: an ordinary invoice number on an empty table gives
header then record; on a table with a foreign row 1 the header is
inserted above it and the old row survives at row 2. -/
theorem claim3_witness :
    update_google_sheet [] ⟨"INV-5", "c", "g", "t", "p"⟩
      = ([sheetHeaders, ["INV-5", "c", "g", "t", "p"]], "added")
    ∧ (update_google_sheet [["old1", "x", "y", "z", "w"]] ⟨"INV-5", "c", "g", "t", "p"⟩).1.getD 0 []
        = sheetHeaders
    ∧ (update_google_sheet [["old1", "x", "y", "z", "w"]] ⟨"INV-5", "c", "g", "t", "p"⟩).1.getD 1 []
        = ["old1", "x", "y", "z", "w"] := by
  refine ⟨?_, ?_, ?_⟩
  · exact ((claim3_header_assurance ⟨"INV-5", "c", "g", "t", "p"⟩).1 (by decide)).trans (by decide)
  · exact ((claim3_header_assurance ⟨"INV-5", "c", "g", "t", "p"⟩).2
      ["old1", "x", "y", "z", "w"] [] (by decide)).1 (by decide)
  · have h := ((claim3_header_assurance ⟨"INV-5", "c", "g", "t", "p"⟩).2
      ["old1", "x", "y", "z", "w"] [] (by decide)).2
    rcases h with h | h
    · exact h
    · exact absurd h.1 (by decide)

/-- C6 counterexample: the sentinel key is not special-cased — once a
row with `"-"` in column 1 exists (here row 2), a further record with
`invoice_number "-"` matches it, overwrites it in place and reports
`"updated"`, not `"added"`. -/
theorem claim6_counterexample :
    update_google_sheet [sheetHeaders, ["-", "x", "y", "z", "w"]] ⟨"-", "A", "B", "C", "D"⟩
      = ([sheetHeaders, ["-", "A", "B", "C", "D"]], "updated")
    ∧ update_google_sheet [sheetHeaders, ["-", "x", "y", "z", "w"]] ⟨"-", "A", "B", "C", "D"⟩
      ≠ (ensureHeaders [sheetHeaders, ["-", "x", "y", "z", "w"]]
          ++ [toRow ⟨"-", "A", "B", "C", "D"⟩], "added") := by decide

/-- C6 (amended: the scan treats `"-"` like any other key): a record
with the sentinel invoice number is appended with outcome `"added"`
provided no column-1 cell of the header-assured table is `"-"`;
otherwise the first such row is updated in place. -/
theorem claim6_sentinel_appends (t : Table) (inv : Invoice)
    (hs : inv.invoice_number = "-")
    (hn : ∀ row ∈ ensureHeaders t, row.headD "" ≠ "-") :
    update_google_sheet t inv = (ensureHeaders t ++ [toRow inv], "added") := by
  have hfi : firstIdxOf inv.invoice_number
      ((ensureHeaders t).map (fun row => row.headD "")) = none := by
    apply firstIdxOf_of_forall_ne
    intro v hv
    rcases List.mem_map.1 hv with ⟨row, hrow, rfl⟩
    rw [hs]
    exact hn row hrow
  simp only [update_google_sheet, hfi]

/-- Witness for C6: a sentinel record on an empty table is appended
below the fresh header. -/
theorem claim6_witness :
    update_google_sheet [] ⟨"-", "A", "B", "C", "D"⟩
      = ([sheetHeaders, ["-", "A", "B", "C", "D"]], "added") :=
  (claim6_sentinel_appends [] ⟨"-", "A", "B", "C", "D"⟩ rfl (by decide)).trans (by decide)

/-- C10: after header assurance, row 1 always carries the fixed header,
whose column-1 cell is the string `"Invoice Number"`; a record whose
invoice number equals that string therefore matches row 1 first, so the
header row's five cells are overwritten with the record's fields and the
reported outcome is `"updated"` — no row is appended. -/
theorem claim10_header_key_updates_header (t : Table) (inv : Invoice)
    (h : inv.invoice_number = "Invoice Number") :
    update_google_sheet t inv = ((ensureHeaders t).set 0 (toRow inv), "updated") := by
  obtain ⟨rest, hrest⟩ := ensureHeaders_eq_cons t
  have hfi : firstIdxOf inv.invoice_number
      ((sheetHeaders :: rest).map (fun row => row.headD "")) = some 0 := by
    simp [firstIdxOf, sheetHeaders, h]
  simp only [update_google_sheet, hrest, hfi]
  simp [overwriteRow, toRow, sheetHeaders]

/-- Witness for C10: on an empty table the freshly written header row is
immediately overwritten by such a record. -/
theorem claim10_witness :
    update_google_sheet [] ⟨"Invoice Number", "A", "B", "C", "D"⟩
      = ([["Invoice Number", "A", "B", "C", "D"]], "updated") :=
  (claim10_header_key_updates_header [] ⟨"Invoice Number", "A", "B", "C", "D"⟩ rfl).trans
    (by decide)

/-! ## Agreement of the raw-dict pipeline with the record-level view -/

/-- On a schema-shaped reply the raw-dict upsert agrees with the
record-level one. -/
theorem update_google_sheet_dict_toEntries (rows : Table) (inv : Invoice) :
    update_google_sheet_dict rows (toEntries inv) = update_google_sheet rows inv := rfl

/-- On a schema-shaped reply the raw-dict normalizer agrees with the
record-level one. -/
theorem normalizeDict_toEntries (r : Invoice) :
    normalizeDict (toEntries r) = toEntries (normalize r) := by
  simp only [normalizeDict, normalizeDictTry, normalize, normalizeTry,
    show dictGet (toEntries r) "gross_price" "-" = r.gross_price from rfl,
    show dictGet (toEntries r) "tax" "-" = r.tax from rfl]
  cases hg : pyFloat (removeChar (removeChar r.gross_price ',') '$') with
  | none => rfl
  | some g =>
    cases ht : strContains r.tax '%' with
    | false => simp [ht]
    | true =>
      simp only [ht, if_true]
      cases hp : pyFloat (removeChar r.tax '%') with
      | none => rfl
      | some p => rfl

/-! ## Claims about the extraction-failure gate and the pipeline (§4.2, §7) -/

/-- C4: the gate is true exactly when every field value of the parsed
reply trims to the sentinel `"-"`; it runs before normalization, and
when it fires the action halts with the "cannot be extracted" warning
before the upsert, leaving the table untouched. -/
theorem claim4_gate (es : Entries) (rows : Table) :
    (extractionFailureGate es = true ↔ ∀ kv ∈ es, pyStrip kv.2 = "-")
    ∧ (extractionFailureGate es = true →
        runPipeline (.dict es) rows = (rows, .halted cannotExtractMsg)) := by
  constructor
  · simp [extractionFailureGate, List.all_eq_true]
  · intro h
    simp [runPipeline, h]

/-- Witness for C4: an all-sentinel reply (one field padded with
whitespace) halts the pipeline with the warning and an unchanged table. -/
theorem claim4_witness :
    runPipeline (.dict [("invoice_number", "-"), ("customer_name", " - "),
        ("gross_price", "-"), ("tax", "-"), ("total_price", "-")]) [["r"]]
      = ([["r"]], .halted cannotExtractMsg) :=
  (claim4_gate [("invoice_number", "-"), ("customer_name", " - "),
    ("gross_price", "-"), ("tax", "-"), ("total_price", "-")] [["r"]]).2 (by decide)

/-- C5 counterexample: a reply that is valid JSON but not the 5-field
schema — the object `{"foo": "x"}` — is *not* treated like the
all-sentinel case: the gate passes (its one value is not `"-"`), the
missing fields default to `"-"`, and the pipeline proceeds to append a
sentinel row, mutating the sheet and reporting success. -/
theorem claim5_counterexample :
    runPipeline (.dict [("foo", "x")]) [sheetHeaders]
      = ([sheetHeaders, ["-", "-", "-", "-", "-"]], .completed "added")
    ∧ runPipeline (.dict [("foo", "x")]) [sheetHeaders]
      ≠ ([sheetHeaders], .halted cannotExtractMsg) := by decide

/-- C5 (amended: only a reply that is not valid JSON at all — a
`json.JSONDecodeError` — is treated identically to the all-sentinel
case): both halt with the same "cannot be extracted" warning and leave
the table untouched.  Schema violations inside valid JSON are not
detected: a non-object reply halts with a generic processing error, and
an object with other keys proceeds with `"-"` defaults and may mutate
the sheet. -/
theorem claim5_not_json_like_sentinel (rows : Table) (es : Entries)
    (h : extractionFailureGate es = true) :
    runPipeline .notJson rows = (rows, .halted cannotExtractMsg)
    ∧ runPipeline .notJson rows = runPipeline (.dict es) rows := by
  constructor
  · rfl
  · simp [runPipeline, h]

/-- Witness for C5: a decode failure and an all-sentinel reply produce
the same halt on the same table. -/
theorem claim5_witness :
    runPipeline .notJson [["w"]] = ([["w"]], .halted cannotExtractMsg)
    ∧ runPipeline .notJson [["w"]] = runPipeline (.dict [("tax", " -")]) [["w"]] :=
  claim5_not_json_like_sentinel [["w"]] [("tax", " -")] (by decide)

end InvoiceApp
